import Mathlib

/-!
Shallow embedding of the fuzzly "sets" service (src/sets.py, src/models.py,
src/server.py): an ordered-collection engine over two relational tables
(`kheina.public.sets` and `kheina.public.set_post`), a read-through /
write-through key-value cache of denormalized set records, and the
membership operations that insert/remove a post at an index while keeping
the per-set indices dense.

Machine integers of the source (BIGINT, INT, Python int) are modelled as
`Int`; SQL row multisets are modelled as Lean lists (list order never
matters: all reads are by filter).  External collaborators (the fuzzly
post client, `InternalSet.authorized`, handle resolution, the privacy
reference table) are parameters: they live outside src/.  Two of the
staged queries — the `_get_set` read and the `get_post_sets` read — are
malformed SQL that PostgreSQL rejects on every execution; they are
modelled as the constant database errors they raise, and the code that
would consume their rows is modelled separately where it is still worth
characterizing.
-/

/-- Error kinds raised by the service (kh_common.exceptions.http_error).
`conflict` stands for the database error of a violated uniqueness
constraint propagating out of `query_async`; `dbError` stands for any
other database error (malformed statement, wrong parameter count)
propagating out of `query_async` — `HttpErrorHandler` would surface
either as a generic internal failure, never as NotFound. -/
inductive Err where
  | notFound (msg : String)
  | badRequest (msg : String)
  | conflict (msg : String)
  | dbError (msg : String)
deriving Repr, DecidableEq

/-- Message template `set_not_found_err` of src/sets.py with the set id formatted in. -/
def set_not_found_msg (set_id : Int) : String :=
  "no data was found for the provided set id: " ++ toString set_id ++ "."

/-- Message used for a missing / unauthorized post in `add_post_to_set` and
`remove_post_from_set`. -/
def post_not_found_msg (post_id : Int) : String :=
  "no data was found for the provided post id: " ++ toString post_id ++ "."

/-- Row of `kheina.public.set_post`: PRIMARY KEY (set_id, post_id), UNIQUE (set_id, index). -/
structure SetEntryRow where
  set_id : Int
  post_id : Int
  index : Int
deriving Repr, DecidableEq

/-- Row of `kheina.public.sets`.  The privacy column holds the privacy id;
the id-to-label reference table is external, so the id is carried as-is.
Timestamps are modelled as integer ticks. -/
structure SetRow where
  set_id : Int
  owner : Int
  title : Option String
  description : Option String
  privacy : Option Int
  created : Int
  updated : Int
deriving Repr, DecidableEq

/-- The relational store: the two tables owned by this service. -/
structure Store where
  sets : List SetRow
  set_post : List SetEntryRow
deriving Repr, DecidableEq

/-- Caller identity: user id plus the result of `user.verify_scope(Scope.mod,
raise_error=False)`. -/
structure KhUser where
  user_id : Int
  scope_mod : Bool
deriving Repr, DecidableEq

/-- Denormalized set record held in the SetKVS cache (fuzzly `InternalSet`
restricted to the fields src/sets.py reads or writes). -/
structure InternalSet where
  set_id : Int
  owner : Int
  title : Option String
  description : Option String
  privacy : Option Int
  created : Int
  updated : Int
  first : Option Int := none
  last : Option Int := none
  count : Int
deriving Repr, DecidableEq

/-- The SetKVS cache, keyed by set id (`AerospikeCache('kheina', 'sets', ..., _kvs=SetKVS)`). -/
abbrev SetKVS : Type := List (Int × InternalSet)

/-- Cache read. -/
def kvsGet (c : SetKVS) (sid : Int) : Option InternalSet :=
  (List.find? (fun e => e.1 == sid) c).map (fun e => e.2)

/-- Cache write (`SetKVS.put_async`): overwrite the entry for the key. -/
def kvsPut (c : SetKVS) (sid : Int) (v : InternalSet) : SetKVS :=
  (sid, v) :: List.filter (fun e => e.1 != sid) c

/-- Cache eviction (`SetKVS.remove_async`). -/
def kvsRemove (c : SetKVS) (sid : Int) : SetKVS :=
  List.filter (fun e => e.1 != sid) c

/-- All `set_post` rows of one set (`WHERE set_id = %s`). -/
def setEntries (st : Store) (sid : Int) : List SetEntryRow :=
  st.set_post.filter (fun r => r.set_id == sid)

/-- Database error raised by every execution of the `_get_set` query: the
statement contains three `%s` placeholders but is bound to only two
parameters, and its final select reads `JOIN f JOIN l` with no ON or USING
clause, which PostgreSQL rejects as a syntax error.  The query therefore
never yields a row set at all — neither the no-row branch (the
`raise NotFound` after `fetch_one`) nor any record with first/last/count
is ever reached. -/
def get_set_query_err : Err :=
  Err.dbError "the _get_set query is malformed (three placeholders bound to two parameters; JOIN f JOIN l without ON) and errors on every execution"

/-- Cached read path `Sets._get_set` (decorated with `AerospikeCache`): on a
cache hit return the cached record without touching the database; on a
miss run the query, which always raises, so the error propagates and the
cache is left unpopulated.  Returns the outcome together with the cache
state afterwards. -/
def get_set_cached (c : SetKVS) (_st : Store) (sid : Int) : Except Err InternalSet × SetKVS :=
  match kvsGet c sid with
  | some iset => (Except.ok iset, c)
  | none => (Except.error get_set_query_err, c)

/-- Storage transaction of `add_post_to_set` (the single SQL statement with
CTEs `i` and `_`): compute the effective index `least(requested, count)`,
shift every row of the set whose index is ≥ the effective index up by one,
and insert the new row at the effective index.  The whole statement is one
transaction: if the insert violates the PRIMARY KEY (set_id, post_id) —
i.e. the post is already a member — the statement aborts and no row is
changed, which is modelled by returning `none`. -/
def add_post_tx (st : Store) (sid pid req_index : Int) : Option Store :=
  if st.set_post.any (fun r => r.set_id == sid && r.post_id == pid) then
    none
  else
    let eff : Int := min req_index ((setEntries st sid).length : Int)
    some { st with set_post :=
      (⟨sid, pid, eff⟩ : SetEntryRow) ::
        (st.set_post.map (fun r =>
          if r.set_id == sid && decide (eff ≤ r.index) then
            { r with index := r.index + 1 }
          else r)) }

/-- Storage transaction of `remove_post_from_set` (the single SQL statement
with the CTE `deleted`): delete the row for (set_id, post_id), and shift
every remaining row of the set whose index is ≥ the deleted index down by
one.  When the post is not a member, `deleted` is empty and the statement
changes nothing. -/
def remove_post_tx (st : Store) (sid pid : Int) : Store :=
  let deleted := st.set_post.filter (fun r => r.set_id == sid && r.post_id == pid)
  let remaining := st.set_post.filter (fun r => !(r.set_id == sid && r.post_id == pid))
  let shifted := remaining.map (fun r =>
    if r.set_id == sid && deleted.any (fun d => decide (d.index ≤ r.index)) then
      { r with index := r.index - 1 }
    else r)
  { st with set_post := shifted }

/-- Boolean the body of `Sets._verify_authorized` computes when it is
actually awaited.  Note the comparison in the source is
`user.user_id == iset.set_id`: the caller's user id is compared against
the SET id, not against `iset.owner`. -/
def verify_authorized_body (user : KhUser) (iset : InternalSet) : Bool :=
  user.user_id == iset.set_id || user.scope_mod

/-- Truth value of the branch condition `not Sets._verify_authorized(user, iset)`
exactly as written in `update_set` and `delete_set`: the call is not
awaited, so its value is a coroutine object, every object is truthy in
Python, and `not` of it is therefore constantly false — the NotFound
branch is unreachable. -/
def not_verify_authorized_unawaited : Bool := false

/-- Public read `Sets.get_set`: load through the cache, then apply the
visibility filter `iset.authorized(client, user)` (external fuzzly code,
passed as the oracle `setAuth`); an unauthorized set is reported as
NotFound with the set-id template.  A cache-missing set never reaches this
point: the underlying query errors first. -/
def get_set (setAuth : KhUser → InternalSet → Bool) (c : SetKVS) (st : Store)
    (user : KhUser) (sid : Int) : Except Err InternalSet × SetKVS :=
  match get_set_cached c st sid with
  | (Except.ok iset, c1) =>
    if setAuth user iset then (Except.ok iset, c1)
    else (Except.error (Err.notFound (set_not_found_msg sid)), c1)
  | (Except.error e, c1) => (Except.error e, c1)

/-- Request body of PATCH /v1/set (src/models.py UpdateSetRequest). -/
structure UpdateSetRequest where
  mask : List String
  owner : Option String
  title : Option String
  description : Option String
  privacy : Option Int
deriving Repr, DecidableEq

/-- One iteration of the `for m in req.mask` loop of `update_set`: a known
field name mirrors the new value onto the in-memory record (resolving an
owner handle through the external client), an unknown one is appended to
`bad_mask`. -/
def apply_mask_item (resolveHandle : Option String → Int) (req : UpdateSetRequest)
    (acc : InternalSet × List String) (m : String) : InternalSet × List String :=
  if m == "owner" then ({ acc.1 with owner := resolveHandle req.owner }, acc.2)
  else if m == "title" then ({ acc.1 with title := req.title }, acc.2)
  else if m == "description" then ({ acc.1 with description := req.description }, acc.2)
  else if m == "privacy" then ({ acc.1 with privacy := req.privacy }, acc.2)
  else (acc.1, acc.2 ++ [m])

/-- BadRequest message of `update_set` for a nonempty `bad_mask`: singular
form for one invalid name, plural with a comma-joined list otherwise. -/
def bad_mask_msg : List String → String
  | [m] => "[" ++ m ++ "] is not a valid mask value"
  | ms => "[" ++ String.intercalate ", " ms ++ "] are not valid mask values"

/-- The mask names accepted by `update_set`, as a filter: the invalid
entries of a mask, in mask order — what the loop accumulates in
`bad_mask`. -/
def invalid_mask_entries (mask : List String) : List String :=
  mask.filter (fun m => !(m == "owner" || m == "title" || m == "description" || m == "privacy"))

/-- Result of the `for m in req.mask` loop of `update_set`: the in-memory
record with the masked fields mirrored onto it, together with the
collected `bad_mask` list. -/
def update_set_fold (resolveHandle : Option String → Int) (req : UpdateSetRequest)
    (iset : InternalSet) : InternalSet × List String :=
  req.mask.foldl (apply_mask_item resolveHandle req) (iset, [])

/-- The `sets` row update performed by `update_set` once the mask was fully
validated: each masked column is set, and the updated-timestamp is always
refreshed. -/
def update_set_row (resolveHandle : Option String → Int) (req : UpdateSetRequest)
    (sid : Int) (now : Int) (st : Store) : Store :=
  { st with sets := st.sets.map (fun s =>
      if s.set_id == sid then
        { s with
          owner := if req.mask.contains "owner" then resolveHandle req.owner else s.owner
          title := if req.mask.contains "title" then req.title else s.title
          description := if req.mask.contains "description" then req.description else s.description
          privacy := if req.mask.contains "privacy" then req.privacy else s.privacy
          updated := now }
      else s) }

/-- Mutation `Sets.update_set`: load through the cache, run the (broken,
never-failing) authorization branch, fold the mask over the record
collecting invalid names, reject the whole request with one BadRequest
when any name was invalid, otherwise update the masked columns of the
`sets` row plus the updated-timestamp and write the record back through
the cache. -/
def update_set (resolveHandle : Option String → Int) (c : SetKVS) (st : Store)
    (user : KhUser) (sid : Int) (req : UpdateSetRequest) (now : Int) :
    Except Err Unit × Store × SetKVS :=
  match get_set_cached c st sid with
  | (Except.error e, c1) => (Except.error e, st, c1)
  | (Except.ok iset, c1) =>
    if not_verify_authorized_unawaited then
      (Except.error (Err.notFound (set_not_found_msg sid)), st, c1)
    else
      match update_set_fold resolveHandle req iset with
      | (_, m :: rest) => (Except.error (Err.badRequest (bad_mask_msg (m :: rest))), st, c1)
      | (iset1, []) =>
        (Except.ok (), update_set_row resolveHandle req sid now st,
         kvsPut c1 sid { iset1 with updated := now })

/-- Mutation `Sets.delete_set`: load through the cache, run the (broken,
never-failing) authorization branch, then delete all `set_post` rows of
the set and the `sets` row, and evict the cache entry. -/
def delete_set (c : SetKVS) (st : Store) (user : KhUser) (sid : Int) :
    Except Err Unit × Store × SetKVS :=
  match get_set_cached c st sid with
  | (Except.error e, c1) => (Except.error e, st, c1)
  | (Except.ok _, c1) =>
    if not_verify_authorized_unawaited then
      (Except.error (Err.notFound (set_not_found_msg sid)), st, c1)
    else
      (Except.ok (),
       { sets := st.sets.filter (fun s => s.set_id != sid),
         set_post := st.set_post.filter (fun r => r.set_id != sid) },
       kvsRemove c1 sid)

/-- Mutation `Sets.add_post_to_set`: check the external post (fetch plus
`ipost.authorized`, folded into the oracle `postAuth`; failure raises
NotFound with the post message), load the set through the cache, check
`iset.authorized` (oracle `setAuth`; failure raises NotFound with the set
message), run the storage transaction, then increment the cached count
and write the record back through the cache.  A constraint violation in
the transaction propagates as an error before the count is touched. -/
def add_post_to_set (postAuth : Int → Bool) (setAuth : KhUser → InternalSet → Bool)
    (c : SetKVS) (st : Store) (user : KhUser) (pid sid req_index : Int) :
    Except Err Unit × Store × SetKVS :=
  if !postAuth pid then (Except.error (Err.notFound (post_not_found_msg pid)), st, c)
  else
    match get_set_cached c st sid with
    | (Except.error e, c1) => (Except.error e, st, c1)
    | (Except.ok iset, c1) =>
      if !setAuth user iset then
        (Except.error (Err.notFound (set_not_found_msg sid)), st, c1)
      else
        match add_post_tx st sid pid req_index with
        | none => (Except.error (Err.conflict "duplicate key value violates unique constraint set_post_pkey"), st, c1)
        | some st1 => (Except.ok (), st1, kvsPut c1 sid { iset with count := iset.count + 1 })

/-- Mutation `Sets.remove_post_from_set`: same guards as the add path, then
the delete-and-shift transaction (which never fails), then the cached
count is decremented — unconditionally, whether or not a row was actually
deleted — and the record is written back through the cache. -/
def remove_post_from_set (postAuth : Int → Bool) (setAuth : KhUser → InternalSet → Bool)
    (c : SetKVS) (st : Store) (user : KhUser) (pid sid : Int) :
    Except Err Unit × Store × SetKVS :=
  if !postAuth pid then (Except.error (Err.notFound (post_not_found_msg pid)), st, c)
  else
    match get_set_cached c st sid with
    | (Except.error e, c1) => (Except.error e, st, c1)
    | (Except.ok iset, c1) =>
      if !setAuth user iset then
        (Except.error (Err.notFound (set_not_found_msg sid)), st, c1)
      else
        (Except.ok (), remove_post_tx st sid pid,
         kvsPut c1 sid { iset with count := iset.count - 1 })

/-- Request body of PUT /v1/post (src/models.py AddPostToSetRequest).  The
raw integer field is kept unconstrained here; `validate_add_request`
models the pydantic constraint. -/
structure AddPostToSetRequest where
  post_id : Int
  set_id : Int
  index : Int
deriving Repr, DecidableEq

/-- Pydantic validation of AddPostToSetRequest: `index: conint(ge=0)`. -/
def validate_add_request (req : AddPostToSetRequest) : Bool :=
  decide (0 ≤ req.index)

deriving instance DecidableEq for Except

/-- Outcome of a v1 route: either the handler ran, or request validation
rejected the body before the handler was invoked. -/
inductive V1Result where
  | handled (r : Except Err Unit)
  | validationError
deriving Repr, DecidableEq

/-- Route `v1AddPost` (PUT /v1/post, src/server.py): the request body is
validated by pydantic before the handler runs; only a validated body
reaches `Sets.add_post_to_set`. -/
def v1_add_post (postAuth : Int → Bool) (setAuth : KhUser → InternalSet → Bool)
    (c : SetKVS) (st : Store) (user : KhUser) (req : AddPostToSetRequest) :
    V1Result × Store × SetKVS :=
  if validate_add_request req then
    let r := add_post_to_set postAuth setAuth c st user req.post_id req.set_id req.index
    (V1Result.handled r.1, r.2.1, r.2.2)
  else
    (V1Result.validationError, st, c)

/-- Window constant `neighbor_range` of `get_post_sets`. -/
def neighbor_range : Int := 3

/-- Database error raised by every execution of the `get_post_sets` query:
its final select reads `INNER JOIN first ON posts.post_id = set_post.post_id`
and no relation named `first` exists in the statement or the schema, so
PostgreSQL rejects the query before producing any row.  (Independently,
its `f` and `l` CTEs each take a single LIMIT 1 row across ALL sets
containing the post and are inner-joined back on set_id, which would drop
every containing set other than the ones holding the globally lowest and
highest entry even if the undefined join were removed.) -/
def get_post_sets_query_err : Err :=
  Err.dbError "relation first does not exist: the get_post_sets query errors on every execution"

/-- Outcome of running the `get_post_sets` query: it always raises, so no
row ever reaches the Python code below that would assemble the neighbor
window. -/
def get_post_sets_query (_st : Store) (_pid : Int) : Except Err (List SetEntryRow) :=
  Except.error get_post_sets_query_err

/-- Window predicate written into the text of the `get_post_sets` query
for one set in which the post sits at index `i`:
`set_post.index BETWEEN i - 3 AND i + 3 AND set_post.index != i`.  This
(and the two sort/split functions below) model the dead neighbor-window
machinery: the query carrying this predicate never executes, see
`get_post_sets_query_err`. -/
def window_rows (es : List SetEntryRow) (i : Int) : List SetEntryRow :=
  es.filter (fun r =>
    decide (i - neighbor_range ≤ r.index) && decide (r.index ≤ i + neighbor_range)
      && (r.index != i))

/-- The "before" list the Python post-processing of `get_post_sets` builds
from window rows: `sorted(filter(lambda x: x[0] < index, ...), key=...,
reverse=True)` — rows with a smaller index, ordered by index descending.
Unreachable in the program, since the query feeding it always errors. -/
def before_neighbors (es : List SetEntryRow) (i : Int) : List SetEntryRow :=
  ((window_rows es i).filter (fun r => decide (r.index < i))).mergeSort
    (fun a b => decide (b.index ≤ a.index))

/-- The "after" list the Python post-processing of `get_post_sets` builds
from window rows: `sorted(filter(lambda x: x[0] > index, ...), key=...,
reverse=False)` — rows with a larger index, ordered by index ascending.
Unreachable in the program, since the query feeding it always errors. -/
def after_neighbors (es : List SetEntryRow) (i : Int) : List SetEntryRow :=
  ((window_rows es i).filter (fun r => decide (i < r.index))).mergeSort
    (fun a b => decide (a.index ≤ b.index))

/-- Indices of a list of entry rows. -/
def entry_indices (es : List SetEntryRow) : List Int :=
  es.map (fun r => r.index)

/-- Density: the indices of the rows are exactly the range 0, 1, ...,
(number of rows) − 1, each occurring once — no gaps, no duplicates. -/
def dense_indices (es : List SetEntryRow) : Prop :=
  ∀ j : Int, (entry_indices es).count j = if 0 ≤ j ∧ j < (es.length : Int) then 1 else 0

/-- Per-set uniqueness of posts (the PRIMARY KEY (set_id, post_id)). -/
def nodup_posts (es : List SetEntryRow) : Prop :=
  (es.map (fun r => r.post_id)).Nodup

/-- Store-wide well-formedness: every set's entries are dense and contain
each post at most once. -/
def wf_store (st : Store) : Prop :=
  ∀ sid : Int, dense_indices (setEntries st sid) ∧ nodup_posts (setEntries st sid)

/-- One membership operation as it arrives through the public interface.
The index of an add carries the pydantic constraint `conint(ge=0)` of
AddPostToSetRequest, hence a `Nat`. -/
inductive MembershipOp where
  | add (user : KhUser) (post_id : Int) (set_id : Int) (index : Nat)
  | remove (user : KhUser) (post_id : Int) (set_id : Int)
deriving Repr, DecidableEq

/-- Effect of one public membership operation on cache and store (the
endpoint is run; a failed operation leaves the store as it was). -/
def apply_membership_op (postAuth : Int → Bool) (setAuth : KhUser → InternalSet → Bool)
    (s : SetKVS × Store) : MembershipOp → SetKVS × Store
  | MembershipOp.add user pid sid idx =>
    let r := add_post_to_set postAuth setAuth s.1 s.2 user pid sid (idx : Int)
    (r.2.2, r.2.1)
  | MembershipOp.remove user pid sid =>
    let r := remove_post_from_set postAuth setAuth s.1 s.2 user pid sid
    (r.2.2, r.2.1)

/-- Effect of a sequence of public membership operations. -/
def apply_membership_ops (postAuth : Int → Bool) (setAuth : KhUser → InternalSet → Bool)
    (s : SetKVS × Store) (ops : List MembershipOp) : SetKVS × Store :=
  ops.foldl (apply_membership_op postAuth setAuth) s

/-! Counting lemmas about index shifts, used to establish preservation of
the dense-index invariant. -/

/-- Occurrence count after the upward shift performed by the add
transaction: values below the effective index keep their count, the
effective index itself is vacated, and every value above it inherits the
count of its predecessor. -/
theorem count_map_shift_up (m : List Int) (eff j : Int) :
    (m.map (fun x => if eff ≤ x then x + 1 else x)).count j =
      (if j < eff then m.count j else if j = eff then 0 else m.count (j - 1)) := by
  induction m with
  | nil => simp
  | cons x m ih =>
    simp only [List.map_cons, List.count_cons, ih, beq_iff_eq]
    by_cases hx : eff ≤ x <;> simp only [hx, if_pos, if_neg, if_true, if_false] <;>
      split_ifs <;> omega

/-- Occurrence count after the downward shift performed by the remove
transaction with deleted index `d`. -/
theorem count_map_shift_down (m : List Int) (d j : Int) :
    (m.map (fun x => if d ≤ x then x - 1 else x)).count j =
      (if j < d - 1 then m.count j
       else if j = d - 1 then m.count (d - 1) + m.count d
       else m.count (j + 1)) := by
  induction m with
  | nil => simp
  | cons x m ih =>
    simp only [List.map_cons, List.count_cons, ih, beq_iff_eq]
    by_cases hx : d ≤ x <;> simp only [hx, if_pos, if_neg, if_true, if_false] <;>
      split_ifs <;> omega

/-- Occurrence count of an integer in the canonical dense range 0 .. n−1. -/
theorem count_int_range (n : Nat) (j : Int) :
    ((List.range n).map (fun k : Nat => (k : Int))).count j =
      (if 0 ≤ j ∧ j < (n : Int) then 1 else 0) := by
  induction n with
  | zero =>
    simp only [List.range_zero, List.map_nil, List.count_nil]
    split_ifs <;> omega
  | succ n ih =>
    rw [List.range_succ, List.map_append, List.count_append, ih]
    simp only [List.map_cons, List.map_nil, List.count_cons, List.count_nil, beq_iff_eq]
    split_ifs <;> omega

/-! Projection lemmas: how each storage transaction acts on the entry list
of a single set. -/

/-- A successful add transaction implies its membership guard was false. -/
theorem add_post_tx_guard (st : Store) (sid pid i : Int) (st1 : Store)
    (h : add_post_tx st sid pid i = some st1) :
    (st.set_post.any fun r => r.set_id == sid && r.post_id == pid) = false := by
  unfold add_post_tx at h
  split at h
  · cases h
  · rename_i hm
    simpa using hm

/-- Explicit shape of the store produced by a successful add transaction. -/
theorem add_post_tx_some_eq (st : Store) (sid pid i : Int) (st1 : Store)
    (h : add_post_tx st sid pid i = some st1) :
    st1 = { st with set_post :=
      (⟨sid, pid, min i ((setEntries st sid).length : Int)⟩ : SetEntryRow) ::
        (st.set_post.map (fun r =>
          if r.set_id == sid && decide ((min i ((setEntries st sid).length : Int)) ≤ r.index) then
            { r with index := r.index + 1 }
          else r)) } := by
  unfold add_post_tx at h
  split at h
  · cases h
  · exact (Option.some.inj h).symm

/-- Filtering by set id commutes with mapping any row function that
preserves the set id. -/
theorem filter_set_id_map_pres (sid2 : Int) (f : SetEntryRow → SetEntryRow)
    (hf : ∀ r, (f r).set_id = r.set_id) (l : List SetEntryRow) :
    (l.map f).filter (fun r => r.set_id == sid2) =
      (l.filter (fun r => r.set_id == sid2)).map f := by
  induction l with
  | nil => rfl
  | cons a l ih =>
    rw [List.map_cons, List.filter_cons, List.filter_cons, hf a]
    by_cases ha : (a.set_id == sid2) = true
    · rw [if_pos ha, if_pos ha, List.map_cons, ih]
    · rw [if_neg ha, if_neg ha, ih]

/-- The row function of the add transaction preserves the set id. -/
theorem add_shift_set_id (sid eff : Int) (r : SetEntryRow) :
    (if r.set_id == sid && decide (eff ≤ r.index) then
      { r with index := r.index + 1 } else r).set_id = r.set_id := by
  split <;> rfl

/-- Entries of the target set after a successful add transaction: the new
row at the effective index, consed onto the old entries shifted up from
the effective index. -/
theorem setEntries_add_target (st : Store) (sid pid i : Int) (st1 : Store)
    (h : add_post_tx st sid pid i = some st1) :
    setEntries st1 sid =
      (⟨sid, pid, min i ((setEntries st sid).length : Int)⟩ : SetEntryRow) ::
        (setEntries st sid).map (fun r =>
          if decide ((min i ((setEntries st sid).length : Int)) ≤ r.index) then
            { r with index := r.index + 1 }
          else r) := by
  obtain rfl := add_post_tx_some_eq st sid pid i st1 h
  show List.filter _ (_ :: _) = _
  rw [List.filter_cons, if_pos (by simp)]
  congr 1
  rw [filter_set_id_map_pres sid _
    (add_shift_set_id sid (min i ((setEntries st sid).length : Int)))]
  apply List.map_congr_left
  intro r hr
  have hrs : (r.set_id == sid) = true := (List.mem_filter.mp hr).2
  simp only [hrs, Bool.true_and]

/-- Entries of any other set are untouched by a successful add transaction. -/
theorem setEntries_add_other (st : Store) (sid pid i : Int) (st1 : Store)
    (h : add_post_tx st sid pid i = some st1) (sid2 : Int) (hne : sid2 ≠ sid) :
    setEntries st1 sid2 = setEntries st sid2 := by
  obtain rfl := add_post_tx_some_eq st sid pid i st1 h
  show List.filter _ (_ :: _) = _
  rw [List.filter_cons, if_neg (by simpa using Ne.symm hne)]
  rw [filter_set_id_map_pres sid2 _
    (add_shift_set_id sid (min i ((setEntries st sid).length : Int)))]
  have hid : ∀ r ∈ st.set_post.filter (fun r : SetEntryRow => r.set_id == sid2),
      (if r.set_id == sid && decide ((min i ((setEntries st sid).length : Int)) ≤ r.index) then
        { r with index := r.index + 1 }
      else r) = r := by
    intro r hr
    have hrs : r.set_id = sid2 := by simpa using (List.mem_filter.mp hr).2
    have hfalse : (r.set_id == sid) = false := by
      simp only [beq_eq_false_iff_ne, ne_eq, hrs]
      exact hne
    simp [hfalse]
  rw [List.map_congr_left hid, List.map_id']
  rfl

/-- The row function of the remove transaction preserves the set id. -/
theorem remove_shift_set_id (sid : Int) (deleted : List SetEntryRow) (r : SetEntryRow) :
    (if r.set_id == sid && deleted.any (fun d => decide (d.index ≤ r.index)) then
      { r with index := r.index - 1 } else r).set_id = r.set_id := by
  split <;> rfl

/-- Entries of any other set are untouched by the remove transaction. -/
theorem setEntries_remove_other (st : Store) (sid pid sid2 : Int) (hne : sid2 ≠ sid) :
    setEntries (remove_post_tx st sid pid) sid2 = setEntries st sid2 := by
  unfold setEntries remove_post_tx
  rw [filter_set_id_map_pres sid2 _
    (remove_shift_set_id sid (st.set_post.filter (fun r => r.set_id == sid && r.post_id == pid)))]
  rw [List.filter_filter]
  have hid : ∀ r ∈ st.set_post.filter (fun r : SetEntryRow =>
      (r.set_id == sid2) && !(r.set_id == sid && r.post_id == pid)),
      (if r.set_id == sid && (st.set_post.filter (fun r2 =>
          r2.set_id == sid && r2.post_id == pid)).any (fun d => decide (d.index ≤ r.index)) then
        { r with index := r.index - 1 }
      else r) = r := by
    intro r hr
    have hrs : r.set_id = sid2 := by
      have := (List.mem_filter.mp hr).2
      simp only [Bool.and_eq_true, beq_iff_eq] at this
      exact this.1
    have hfalse : (r.set_id == sid) = false := by
      simp only [beq_eq_false_iff_ne, ne_eq, hrs]
      exact hne
    simp [hfalse]
  rw [List.map_congr_left hid, List.map_id']
  apply List.filter_congr
  intro r _
  by_cases h2 : (r.set_id == sid2) = true
  · have hrs : r.set_id = sid2 := by simpa using h2
    have hfalse : (r.set_id == sid) = false := by
      simp only [beq_eq_false_iff_ne, ne_eq, hrs]
      exact hne
    simp [h2, hfalse]
  · simp [eq_false_of_ne_true h2]

/-- Entries of the target set after the remove transaction: the rows whose
post is not the removed one, shifted down from the deleted index (the
deleted-row list being computed within the same set). -/
theorem setEntries_remove_target (st : Store) (sid pid : Int) :
    setEntries (remove_post_tx st sid pid) sid =
      ((setEntries st sid).filter (fun r => !(r.post_id == pid))).map (fun r =>
        if ((setEntries st sid).filter (fun r2 => r2.post_id == pid)).any
            (fun d => decide (d.index ≤ r.index)) then
          { r with index := r.index - 1 }
        else r) := by
  unfold setEntries remove_post_tx
  rw [filter_set_id_map_pres sid _
    (remove_shift_set_id sid (st.set_post.filter (fun r => r.set_id == sid && r.post_id == pid)))]
  rw [List.filter_filter, List.filter_filter]
  have hD : st.set_post.filter (fun r2 => r2.set_id == sid && r2.post_id == pid) =
      st.set_post.filter (fun r2 => (r2.post_id == pid) && (r2.set_id == sid)) :=
    List.filter_congr (fun r _ => Bool.and_comm _ _)
  have hbase : st.set_post.filter (fun r : SetEntryRow =>
        (r.set_id == sid) && !(r.set_id == sid && r.post_id == pid)) =
      st.set_post.filter (fun r : SetEntryRow => (!(r.post_id == pid)) && (r.set_id == sid)) := by
    apply List.filter_congr
    intro r _
    by_cases h2 : (r.set_id == sid) = true
    · simp [h2]
    · simp [eq_false_of_ne_true h2]
  rw [hD, hbase, List.filter_filter]
  apply List.map_congr_left
  intro r hr
  have hrs : (r.set_id == sid) = true := by
    have := (List.mem_filter.mp hr).2
    simp only [Bool.and_eq_true] at this
    exact this.2
  simp only [hrs, Bool.true_and]

/-! Preservation of the dense-index invariant and of per-set post
uniqueness by the two storage transactions. -/

/-- Unfolded form of the remove transaction. -/
theorem remove_post_tx_eq (st : Store) (sid pid : Int) :
    remove_post_tx st sid pid = Store.mk st.sets
      ((st.set_post.filter (fun r => !(r.set_id == sid && r.post_id == pid))).map
        (fun r =>
          if r.set_id == sid && (st.set_post.filter (fun r2 =>
              r2.set_id == sid && r2.post_id == pid)).any (fun d => decide (d.index ≤ r.index)) then
            { r with index := r.index - 1 }
          else r)) := rfl

/-- Removing a post that is not a member of the set leaves the store
entirely unchanged: the delete matches no row and the shift joins against
an empty deleted-row list. -/
theorem remove_post_tx_not_member (st : Store) (sid pid : Int)
    (h : (st.set_post.any fun r => r.set_id == sid && r.post_id == pid) = false) :
    remove_post_tx st sid pid = st := by
  rw [remove_post_tx_eq]
  have hall := List.any_eq_false.mp h
  have hdel : st.set_post.filter (fun r => r.set_id == sid && r.post_id == pid) = [] := by
    rw [List.filter_eq_nil_iff]
    exact hall
  have hrem : st.set_post.filter (fun r => !(r.set_id == sid && r.post_id == pid)) = st.set_post := by
    rw [List.filter_eq_self]
    intro a ha
    simp only [Bool.not_eq_true']
    exact Bool.of_not_eq_true (hall a ha)
  rw [hdel, hrem]
  have hmap : ∀ r ∈ st.set_post,
      (if r.set_id == sid && ([] : List SetEntryRow).any (fun d => decide (d.index ≤ r.index)) then
        { r with index := r.index - 1 }
      else r) = r := by
    intro r _
    simp
  rw [List.map_congr_left hmap, List.map_id']

/-- Density is preserved on the target set by a successful add transaction
with a nonnegative requested index. -/
theorem dense_add_target (st : Store) (sid pid i : Int) (st1 : Store)
    (h : add_post_tx st sid pid i = some st1) (h0 : 0 ≤ i)
    (hd : dense_indices (setEntries st sid)) :
    dense_indices (setEntries st1 sid) := by
  rw [setEntries_add_target st sid pid i st1 h]
  intro j
  have hidx : entry_indices ((⟨sid, pid, min i ((setEntries st sid).length : Int)⟩ : SetEntryRow) ::
      (setEntries st sid).map (fun r =>
        if decide ((min i ((setEntries st sid).length : Int)) ≤ r.index) then
          { r with index := r.index + 1 }
        else r)) =
      (min i ((setEntries st sid).length : Int)) ::
        (entry_indices (setEntries st sid)).map (fun x =>
          if (min i ((setEntries st sid).length : Int)) ≤ x then x + 1 else x) := by
    simp only [entry_indices, List.map_cons, List.map_map]
    congr 1
    apply List.map_congr_left
    intro r _
    by_cases hc : (min i ((setEntries st sid).length : Int)) ≤ r.index
    · simp [Function.comp, hc]
    · simp [Function.comp, hc]
  rw [hidx, List.count_cons, count_map_shift_up]
  have hj := hd j
  have hj1 := hd (j - 1)
  have hmin1 : 0 ≤ min i ((setEntries st sid).length : Int) :=
    le_min h0 (Int.natCast_nonneg _)
  have hmin2 : min i ((setEntries st sid).length : Int) ≤ ((setEntries st sid).length : Int) :=
    min_le_right _ _
  simp only [List.length_cons, List.length_map, beq_iff_eq]
  push_cast
  split_ifs at hj hj1 ⊢ <;> omega

/-- Per-set post uniqueness is preserved on the target set by a successful
add transaction. -/
theorem nodup_add_target (st : Store) (sid pid i : Int) (st1 : Store)
    (h : add_post_tx st sid pid i = some st1)
    (hnd : nodup_posts (setEntries st sid)) :
    nodup_posts (setEntries st1 sid) := by
  have hguard := add_post_tx_guard st sid pid i st1 h
  rw [setEntries_add_target st sid pid i st1 h]
  unfold nodup_posts at hnd ⊢
  rw [List.map_cons, List.map_map, List.nodup_cons]
  have hcomp : ((fun r : SetEntryRow => r.post_id) ∘ (fun r =>
      if decide ((min i ((setEntries st sid).length : Int)) ≤ r.index) then
        { r with index := r.index + 1 }
      else r)) = fun r : SetEntryRow => r.post_id := by
    funext r
    by_cases hc : (min i ((setEntries st sid).length : Int)) ≤ r.index
    · simp [Function.comp, hc]
    · simp [Function.comp, hc]
  rw [hcomp]
  refine ⟨?_, hnd⟩
  intro hmem
  obtain ⟨r, hr, hrp⟩ := List.mem_map.mp hmem
  have hr2 := List.mem_filter.mp hr
  have : (st.set_post.any fun r2 => r2.set_id == sid && r2.post_id == pid) = true :=
    List.any_eq_true.mpr ⟨r, hr2.1, by simp [hrp, (beq_iff_eq).mp hr2.2]⟩
  rw [hguard] at this
  cases this

/-- A list whose posts are nodup and which contains a row carrying the post
filters down to exactly that row when filtered by the post. -/
theorem filter_post_singleton (es : List SetEntryRow) (pid : Int)
    (hnd : (es.map (fun r => r.post_id)).Nodup) (e : SetEntryRow)
    (he : e ∈ es) (hp : e.post_id = pid) :
    es.filter (fun r => r.post_id == pid) = [e] := by
  induction es with
  | nil => cases he
  | cons a es ih =>
    rw [List.map_cons, List.nodup_cons] at hnd
    rw [List.filter_cons]
    rcases List.mem_cons.mp he with rfl | he2
    · rw [if_pos (by simp [hp])]
      have hnil : es.filter (fun r => r.post_id == pid) = [] := by
        rw [List.filter_eq_nil_iff]
        intro r hr hcon
        apply hnd.1
        rw [hp]
        rw [beq_iff_eq] at hcon
        exact hcon ▸ List.mem_map_of_mem (fun r2 => r2.post_id) hr
      rw [hnil]
    · have hane : ¬ ((a.post_id == pid) = true) := by
        intro hcon
        apply hnd.1
        rw [beq_iff_eq] at hcon
        rw [hcon, ← hp]
        exact List.mem_map_of_mem (fun r2 => r2.post_id) he2
      rw [if_neg hane]
      exact ih hnd.2 he2

/-- Density is preserved on the target set by the remove transaction. -/
theorem dense_remove_target (st : Store) (sid pid : Int)
    (hd : dense_indices (setEntries st sid)) (hnd : nodup_posts (setEntries st sid)) :
    dense_indices (setEntries (remove_post_tx st sid pid) sid) := by
  by_cases hm : (st.set_post.any fun r => r.set_id == sid && r.post_id == pid) = true
  · obtain ⟨r0, hr0, hc⟩ := List.any_eq_true.mp hm
    rw [Bool.and_eq_true] at hc
    have hr0es : r0 ∈ setEntries st sid := List.mem_filter.mpr ⟨hr0, hc.1⟩
    have hdel := filter_post_singleton (setEntries st sid) pid hnd r0 hr0es (beq_iff_eq.mp hc.2)
    rw [setEntries_remove_target st sid pid, hdel]
    intro j
    have hperm : List.Perm
        ([r0] ++ (setEntries st sid).filter (fun r => !(r.post_id == pid)))
        (setEntries st sid) := by
      rw [← hdel]
      exact List.filter_append_perm _ _
    have hd0 : 0 ≤ r0.index ∧ r0.index < ((setEntries st sid).length : Int) := by
      have hmem : r0.index ∈ entry_indices (setEntries st sid) :=
        List.mem_map_of_mem (fun r => r.index) hr0es
      have hcd := hd r0.index
      by_cases hcase : 0 ≤ r0.index ∧ r0.index < ((setEntries st sid).length : Int)
      · exact hcase
      · rw [if_neg hcase] at hcd
        have := List.count_pos_iff.mpr hmem
        omega
    have hlenB : ((setEntries st sid).filter (fun r => !(r.post_id == pid))).length + 1 =
        (setEntries st sid).length := by
      have := hperm.length_eq
      simp only [List.length_append, List.length_cons, List.length_nil] at this
      omega
    have hcntB : ∀ k : Int,
        (entry_indices ((setEntries st sid).filter (fun r => !(r.post_id == pid)))).count k +
          (if r0.index = k then 1 else 0) = (entry_indices (setEntries st sid)).count k := by
      intro k
      have hcount := (hperm.map (fun r => r.index)).count_eq k
      simpa [entry_indices, List.count_cons, beq_iff_eq, Nat.add_comm] using hcount
    have hidx : entry_indices (((setEntries st sid).filter (fun r => !(r.post_id == pid))).map
        (fun r => if [r0].any (fun d => decide (d.index ≤ r.index)) then
          { r with index := r.index - 1 } else r)) =
      (entry_indices ((setEntries st sid).filter (fun r => !(r.post_id == pid)))).map
        (fun x => if r0.index ≤ x then x - 1 else x) := by
      simp only [entry_indices, List.map_map]
      apply List.map_congr_left
      intro r _
      by_cases hcr : r0.index ≤ r.index
      · simp [Function.comp, hcr]
      · simp [Function.comp, hcr]
    rw [hidx, count_map_shift_down, List.length_map]
    have hB : ∀ k : Int,
        (entry_indices ((setEntries st sid).filter (fun r => !(r.post_id == pid)))).count k =
          (if k = r0.index then 0 else
            if 0 ≤ k ∧ k < ((setEntries st sid).length : Int) then 1 else 0) := by
      intro k
      have hk := hcntB k
      have ek := hd k
      rw [ek] at hk
      split_ifs at hk ⊢ <;> omega
    by_cases c1 : j < r0.index - 1
    · rw [if_pos c1, hB j]
      split_ifs <;> omega
    · by_cases c2 : j = r0.index - 1
      · rw [if_neg c1, if_pos c2, hB (r0.index - 1), hB r0.index]
        split_ifs <;> omega
      · rw [if_neg c1, if_neg c2, hB (j + 1)]
        split_ifs <;> omega
  · rw [remove_post_tx_not_member st sid pid (Bool.of_not_eq_true hm)]
    exact hd

/-- Per-set post uniqueness is preserved on the target set by the remove
transaction. -/
theorem nodup_remove_target (st : Store) (sid pid : Int)
    (hnd : nodup_posts (setEntries st sid)) :
    nodup_posts (setEntries (remove_post_tx st sid pid) sid) := by
  rw [setEntries_remove_target st sid pid]
  unfold nodup_posts at hnd ⊢
  rw [List.map_map]
  have hcomp : ((fun r : SetEntryRow => r.post_id) ∘ (fun r =>
      if ((setEntries st sid).filter (fun r2 => r2.post_id == pid)).any
          (fun d => decide (d.index ≤ r.index)) then
        { r with index := r.index - 1 }
      else r)) = fun r : SetEntryRow => r.post_id := by
    funext r
    simp only [Function.comp]
    split <;> rfl
  rw [hcomp]
  exact ((List.filter_sublist _).map (fun r : SetEntryRow => r.post_id)).nodup hnd

/-- Store-wide well-formedness is preserved by a successful add transaction
with a nonnegative requested index. -/
theorem wf_add_tx (st : Store) (sid pid i : Int) (st1 : Store)
    (h : add_post_tx st sid pid i = some st1) (h0 : 0 ≤ i) (hwf : wf_store st) :
    wf_store st1 := by
  intro sid2
  by_cases he : sid2 = sid
  · subst he
    exact ⟨dense_add_target st sid2 pid i st1 h h0 (hwf sid2).1,
      nodup_add_target st sid2 pid i st1 h (hwf sid2).2⟩
  · rw [setEntries_add_other st sid pid i st1 h sid2 he]
    exact hwf sid2

/-- Store-wide well-formedness is preserved by the remove transaction. -/
theorem wf_remove_tx (st : Store) (sid pid : Int) (hwf : wf_store st) :
    wf_store (remove_post_tx st sid pid) := by
  intro sid2
  by_cases he : sid2 = sid
  · subst he
    exact ⟨dense_remove_target st sid2 pid (hwf sid2).1 (hwf sid2).2,
      nodup_remove_target st sid2 pid (hwf sid2).2⟩
  · rw [setEntries_remove_other st sid pid sid2 he]
    exact hwf sid2

/-- The store that comes out of the add endpoint is either unchanged (on
any failure) or the result of a successful add transaction. -/
theorem add_endpoint_store (postAuth : Int → Bool) (setAuth : KhUser → InternalSet → Bool)
    (c : SetKVS) (st : Store) (user : KhUser) (pid sid i : Int) :
    (add_post_to_set postAuth setAuth c st user pid sid i).2.1 = st ∨
      add_post_tx st sid pid i =
        some (add_post_to_set postAuth setAuth c st user pid sid i).2.1 := by
  unfold add_post_to_set
  split
  · exact Or.inl rfl
  split
  · exact Or.inl rfl
  split
  · exact Or.inl rfl
  split
  · exact Or.inl rfl
  · rename_i st1 heq
    exact Or.inr heq

/-- The store that comes out of the remove endpoint is either unchanged (on
a failed guard) or the result of the remove transaction. -/
theorem remove_endpoint_store (postAuth : Int → Bool) (setAuth : KhUser → InternalSet → Bool)
    (c : SetKVS) (st : Store) (user : KhUser) (pid sid : Int) :
    (remove_post_from_set postAuth setAuth c st user pid sid).2.1 = st ∨
      (remove_post_from_set postAuth setAuth c st user pid sid).2.1 =
        remove_post_tx st sid pid := by
  unfold remove_post_from_set
  split
  · exact Or.inl rfl
  split
  · exact Or.inl rfl
  split
  · exact Or.inl rfl
  · exact Or.inr rfl

/-- Store-wide well-formedness is preserved by one public membership
operation. -/
theorem wf_membership_op (postAuth : Int → Bool) (setAuth : KhUser → InternalSet → Bool)
    (s : SetKVS × Store) (op : MembershipOp) (hwf : wf_store s.2) :
    wf_store (apply_membership_op postAuth setAuth s op).2 := by
  cases op with
  | add user pid sid idx =>
    rcases add_endpoint_store postAuth setAuth s.1 s.2 user pid sid (idx : Int) with h | h
    · show wf_store (add_post_to_set postAuth setAuth s.1 s.2 user pid sid (idx : Int)).2.1
      rw [h]
      exact hwf
    · show wf_store (add_post_to_set postAuth setAuth s.1 s.2 user pid sid (idx : Int)).2.1
      exact wf_add_tx s.2 sid pid (idx : Int) _ h (Int.natCast_nonneg idx) hwf
  | remove user pid sid =>
    rcases remove_endpoint_store postAuth setAuth s.1 s.2 user pid sid with h | h
    · show wf_store (remove_post_from_set postAuth setAuth s.1 s.2 user pid sid).2.1
      rw [h]
      exact hwf
    · show wf_store (remove_post_from_set postAuth setAuth s.1 s.2 user pid sid).2.1
      rw [h]
      exact wf_remove_tx s.2 sid pid hwf

/-- Store-wide well-formedness is preserved by any sequence of public
membership operations. -/
theorem wf_membership_ops (postAuth : Int → Bool) (setAuth : KhUser → InternalSet → Bool)
    (s : SetKVS × Store) (ops : List MembershipOp) (hwf : wf_store s.2) :
    wf_store (apply_membership_ops postAuth setAuth s ops).2 := by
  induction ops generalizing s with
  | nil => exact hwf
  | cons op ops ih =>
    exact ih (apply_membership_op postAuth setAuth s op)
      (wf_membership_op postAuth setAuth s op hwf)

/-- A store with no membership rows at all is well-formed, whatever its
sets table holds; in particular this covers a freshly created set. -/
theorem wf_store_no_entries (sets0 : List SetRow) : wf_store ⟨sets0, []⟩ := by
  intro sid
  constructor
  · intro j
    simp only [setEntries, List.filter_nil, entry_indices, List.map_nil, List.count_nil,
      List.length_nil]
    split_ifs <;> omega
  · simp [nodup_posts, setEntries]

example : set_not_found_msg 5 = "no data was found for the provided set id: 5." := by rfl

example :
    add_post_tx ⟨[], [⟨1, 100, 0⟩]⟩ 1 200 5 =
      some ⟨[], [⟨1, 200, 1⟩, ⟨1, 100, 0⟩]⟩ := by rfl

example : add_post_tx ⟨[], [⟨1, 100, 0⟩]⟩ 1 100 5 = none := by rfl

example :
    remove_post_tx ⟨[], [⟨1, 200, 1⟩, ⟨1, 100, 0⟩]⟩ 1 100 =
      ⟨[], [⟨1, 200, 0⟩]⟩ := by decide

example :
    remove_post_tx ⟨[], [⟨1, 200, 1⟩, ⟨1, 100, 0⟩]⟩ 1 999 =
      ⟨[], [⟨1, 200, 1⟩, ⟨1, 100, 0⟩]⟩ := by decide

example :
    get_set_cached [] ⟨[⟨1, 7, none, none, none, 0, 0⟩], []⟩ 1 =
      (Except.error get_set_query_err, []) := by rfl

/-! Claim theorems. -/

/-- C1: after any sequence of public add-post / remove-post membership
operations run from a store satisfying the invariant (in particular from a
freshly created set, whose entry list is empty), the surviving SetEntry
indices of every set form exactly the dense range 0 .. count−1 — each j
with 0 ≤ j < count occurs exactly once and no other index occurs — where
count is the number of SetEntry rows of that set. -/
theorem membership_ops_keep_indices_dense
    (postAuth : Int → Bool) (setAuth : KhUser → InternalSet → Bool)
    (c : SetKVS) (st : Store) (ops : List MembershipOp) (hwf : wf_store st) (sid : Int) :
    dense_indices (setEntries (apply_membership_ops postAuth setAuth (c, st) ops).2 sid) :=
  (wf_membership_ops postAuth setAuth (c, st) ops hwf sid).1

/-- Witness for C1 on a concrete run: two inserts (one clamped from index 5
to the end) followed by a removal, on an initially empty set. -/
theorem membership_ops_keep_indices_dense_witness :
    dense_indices (setEntries (apply_membership_ops (fun _ => true) (fun _ _ => true)
      ([(1, ⟨1, 7, none, none, none, 0, 0, none, none, 0⟩)], ⟨[], []⟩)
      [MembershipOp.add ⟨7, false⟩ 100 1 5, MembershipOp.add ⟨7, false⟩ 200 1 0,
        MembershipOp.remove ⟨7, false⟩ 100 1]).2 1) :=
  membership_ops_keep_indices_dense (fun _ => true) (fun _ _ => true)
    [(1, ⟨1, 7, none, none, none, 0, 0, none, none, 0⟩)] ⟨[], []⟩
    [MembershipOp.add ⟨7, false⟩ 100 1 5, MembershipOp.add ⟨7, false⟩ 200 1 0,
      MembershipOp.remove ⟨7, false⟩ 100 1]
    (wf_store_no_entries []) 1

/-- C3: an add of a fresh post with requested index i on a set currently
holding n entries always succeeds, and the inserted entry carries the
effective index min(i, n); in particular for i ≥ n the effective index is
n, i.e. the insert appends at the end. -/
theorem add_post_effective_index (st : Store) (sid pid i : Int)
    (hnm : (st.set_post.any fun r => r.set_id == sid && r.post_id == pid) = false) :
    ∃ st1, add_post_tx st sid pid i = some st1 ∧
      (setEntries st1 sid).filter (fun r => r.post_id == pid) =
        [⟨sid, pid, min i ((setEntries st sid).length : Int)⟩] ∧
      (((setEntries st sid).length : Int) ≤ i →
        min i ((setEntries st sid).length : Int) = ((setEntries st sid).length : Int)) := by
  have hsome : add_post_tx st sid pid i = some (Store.mk st.sets
      ((⟨sid, pid, min i ((setEntries st sid).length : Int)⟩ : SetEntryRow) ::
        (st.set_post.map (fun r =>
          if r.set_id == sid && decide ((min i ((setEntries st sid).length : Int)) ≤ r.index) then
            { r with index := r.index + 1 }
          else r)))) := by
    unfold add_post_tx
    rw [if_neg (by rw [hnm]; exact Bool.false_ne_true)]
  refine ⟨_, hsome, ?_, fun hle => min_eq_right hle⟩
  rw [setEntries_add_target st sid pid i _ hsome]
  rw [List.filter_cons_of_pos (by simp)]
  have hnil : ((setEntries st sid).map (fun r =>
      if decide ((min i ((setEntries st sid).length : Int)) ≤ r.index) then
        { r with index := r.index + 1 }
      else r)).filter (fun r => r.post_id == pid) = [] := by
    rw [List.filter_eq_nil_iff]
    intro x hx
    obtain ⟨r, hr, hrx⟩ := List.mem_map.mp hx
    have hr2 := List.mem_filter.mp hr
    have hxp : x.post_id = r.post_id := by
      rw [← hrx]
      split <;> rfl
    have hnot := List.any_eq_false.mp hnm r hr2.1
    intro hcon
    apply hnot
    rw [hr2.2, Bool.true_and, ← hxp]
    exact hcon
  rw [hnil]

/-- Witness for C3: inserting post 300 at requested index 10 into a set of
two entries succeeds with effective index 2 (append at the end). -/
theorem add_post_effective_index_witness :
    ∃ st1, add_post_tx ⟨[], [⟨1, 100, 0⟩, ⟨1, 200, 1⟩]⟩ 1 300 10 = some st1 ∧
      (setEntries st1 1).filter (fun r => r.post_id == 300) =
        [⟨1, 300, min 10 ((setEntries (⟨[], [⟨1, 100, 0⟩, ⟨1, 200, 1⟩]⟩ : Store) 1).length : Int)⟩] ∧
      (((setEntries (⟨[], [⟨1, 100, 0⟩, ⟨1, 200, 1⟩]⟩ : Store) 1).length : Int) ≤ 10 →
        min 10 ((setEntries (⟨[], [⟨1, 100, 0⟩, ⟨1, 200, 1⟩]⟩ : Store) 1).length : Int) =
          ((setEntries (⟨[], [⟨1, 100, 0⟩, ⟨1, 200, 1⟩]⟩ : Store) 1).length : Int)) :=
  add_post_effective_index ⟨[], [⟨1, 100, 0⟩, ⟨1, 200, 1⟩]⟩ 1 300 10 (by decide)

/-- C9: adding a post that is already a member of the set fails on the
(set_id, post_id) primary key, and the failure is atomic because the shift
and the insert are one SQL statement: the transaction produces no store,
the endpoint surfaces the constraint error, and the store — hence every
existing SetEntry and its index — is unchanged, as is the cache. -/
theorem add_duplicate_post_fails_atomically
    (postAuth : Int → Bool) (setAuth : KhUser → InternalSet → Bool)
    (c : SetKVS) (st : Store) (user : KhUser) (pid sid i : Int) (iset : InternalSet)
    (hmem : (st.set_post.any fun r => r.set_id == sid && r.post_id == pid) = true)
    (hcache : kvsGet c sid = some iset)
    (hpa : postAuth pid = true) (hsa : setAuth user iset = true) :
    add_post_tx st sid pid i = none ∧
      add_post_to_set postAuth setAuth c st user pid sid i =
        (Except.error
          (Err.conflict "duplicate key value violates unique constraint set_post_pkey"),
         st, c) := by
  have htx : add_post_tx st sid pid i = none := by
    unfold add_post_tx
    rw [if_pos hmem]
  refine ⟨htx, ?_⟩
  unfold add_post_to_set get_set_cached
  rw [hcache, hpa]
  simp [htx, hsa]

/-- Witness for C9: re-adding post 100, already at index 0 of set 1, at
requested index 1. -/
theorem add_duplicate_post_fails_atomically_witness :
    add_post_tx ⟨[], [⟨1, 100, 0⟩]⟩ 1 100 1 = none ∧
      add_post_to_set (fun _ => true) (fun _ _ => true)
          [(1, ⟨1, 7, none, none, none, 0, 0, some 100, some 100, 1⟩)]
          ⟨[], [⟨1, 100, 0⟩]⟩ ⟨7, false⟩ 100 1 1 =
        (Except.error
          (Err.conflict "duplicate key value violates unique constraint set_post_pkey"),
         ⟨[], [⟨1, 100, 0⟩]⟩,
         [(1, ⟨1, 7, none, none, none, 0, 0, some 100, some 100, 1⟩)]) :=
  add_duplicate_post_fails_atomically (fun _ => true) (fun _ _ => true)
    [(1, ⟨1, 7, none, none, none, 0, 0, some 100, some 100, 1⟩)]
    ⟨[], [⟨1, 100, 0⟩]⟩ ⟨7, false⟩ 100 1 1
    ⟨1, 7, none, none, none, 0, 0, some 100, some 100, 1⟩
    (by decide) (by decide) rfl rfl

/-- C8: removing a post that is not a member reports success and is a
storage no-op, BUT the endpoint still decrements the cached count and
writes it back: on this concrete input the store keeps its single SetEntry
row while the cache afterwards reports count 0 for the same set, so a
subsequent cached read does not reflect an unchanged membership count. -/
theorem remove_non_member_decrements_cached_count :
    remove_post_from_set (fun _ => true) (fun _ _ => true)
        [(1, ⟨1, 7, none, none, none, 0, 0, some 100, some 100, 1⟩)]
        ⟨[⟨1, 7, none, none, none, 0, 0⟩], [⟨1, 100, 0⟩]⟩ ⟨7, false⟩ 999 1 =
      (Except.ok (), ⟨[⟨1, 7, none, none, none, 0, 0⟩], [⟨1, 100, 0⟩]⟩,
        [(1, ⟨1, 7, none, none, none, 0, 0, some 100, some 100, 0⟩)]) ∧
    (setEntries (⟨[⟨1, 7, none, none, none, 0, 0⟩], [⟨1, 100, 0⟩]⟩ : Store) 1).length = 1 ∧
    (kvsGet [(1, ⟨1, 7, none, none, none, 0, 0, some 100, some 100, 0⟩)] 1).map
        InternalSet.count = some 0 := by
  refine ⟨?_, by decide, by decide⟩
  decide

/-- C2: divergence exhibited — `update_set` and `delete_set` never raise
NotFound for an unauthorized caller.  The branch condition tests the
coroutine returned by `Sets._verify_authorized` without awaiting it
(`not_verify_authorized_unawaited` is constantly false), so caller 2, who
is neither the owner (7) nor a moderator, successfully deletes and updates
the set owned by user 7.  Even the awaited body would be wrong: it
compares the caller to the SET id, so owner 7 itself fails the check. -/
theorem update_delete_skip_authorization :
    delete_set [(1, ⟨1, 7, none, none, none, 0, 0, some 100, some 100, 1⟩)]
        ⟨[⟨1, 7, none, none, none, 0, 0⟩], [⟨1, 100, 0⟩]⟩ ⟨2, false⟩ 1 =
      (Except.ok (), ⟨[], []⟩, []) ∧
    (update_set (fun _ => 0) [(1, ⟨1, 7, none, none, none, 0, 0, some 100, some 100, 1⟩)]
        ⟨[⟨1, 7, none, none, none, 0, 0⟩], [⟨1, 100, 0⟩]⟩ ⟨2, false⟩ 1
        ⟨["title"], none, some "taken over", none, none⟩ 9).1 = Except.ok () ∧
    (update_set (fun _ => 0) [(1, ⟨1, 7, none, none, none, 0, 0, some 100, some 100, 1⟩)]
        ⟨[⟨1, 7, none, none, none, 0, 0⟩], [⟨1, 100, 0⟩]⟩ ⟨2, false⟩ 1
        ⟨["title"], none, some "taken over", none, none⟩ 9).2.1 =
      ⟨[⟨1, 7, some "taken over", none, none, 0, 9⟩], [⟨1, 100, 0⟩]⟩ ∧
    verify_authorized_body ⟨2, false⟩ ⟨1, 7, none, none, none, 0, 0, some 100, some 100, 1⟩
      = false ∧
    verify_authorized_body ⟨7, false⟩ ⟨1, 7, none, none, none, 0, 0, some 100, some 100, 1⟩
      = false ∧
    not_verify_authorized_unawaited = false := by
  refine ⟨by decide, ?_, ?_, by decide, by decide, rfl⟩ <;> decide

/-- C4: divergence exhibited — an existing set with zero entries is not
returned with count 0, and in fact no set can be read on a cache miss at
all: the `_get_set` query binds two parameters to three placeholders and
joins `f`/`l` with no ON clause, so every cache-miss execution raises a
database error (never the NotFound of the dead no-row branch, and never a
record).  The set row for id 1 exists, yet reading it through a cold cache
errors; the same error strikes a nonempty set.  Only a cache hit (e.g. the
record seeded by `create_set` with count 0) ever returns a set. -/
theorem empty_set_read_errors_on_cache_miss :
    get_set_cached [] ⟨[⟨1, 7, none, none, none, 0, 0⟩], []⟩ 1 =
      (Except.error get_set_query_err, []) ∧
    (get_set (fun _ _ => true) [] ⟨[⟨1, 7, none, none, none, 0, 0⟩], []⟩ ⟨7, false⟩ 1).1 =
      Except.error get_set_query_err ∧
    (∃ s ∈ ([⟨1, 7, none, none, none, 0, 0⟩] : List SetRow), s.set_id = 1) ∧
    get_set_cached [] ⟨[⟨1, 7, none, none, none, 0, 0⟩], [⟨1, 100, 0⟩, ⟨1, 200, 1⟩]⟩ 1 =
      (Except.error get_set_query_err, []) ∧
    get_set_query_err ≠ Err.notFound (set_not_found_msg 1) ∧
    (get_set_cached [(1, ⟨1, 7, none, none, none, 0, 0, none, none, 0⟩)]
        ⟨[⟨1, 7, none, none, none, 0, 0⟩], []⟩ 1).1 =
      Except.ok ⟨1, 7, none, none, none, 0, 0, none, none, 0⟩ := by
  exact ⟨rfl, rfl, by decide, rfl, by decide, rfl⟩

/-- The bad-mask component of the update fold is exactly the list of
invalid names of the mask, in order, appended to the accumulator. -/
theorem mask_foldl_bad (resolveHandle : Option String → Int) (req : UpdateSetRequest)
    (ms : List String) (acc : InternalSet × List String) :
    (ms.foldl (apply_mask_item resolveHandle req) acc).2 =
      acc.2 ++ ms.filter
        (fun m => !(m == "owner" || m == "title" || m == "description" || m == "privacy")) := by
  induction ms generalizing acc with
  | nil => simp
  | cons m ms ih =>
    rw [List.foldl_cons, ih, List.filter_cons]
    unfold apply_mask_item
    by_cases h1 : (m == "owner") = true
    · simp [h1]
    · by_cases h2 : (m == "title") = true
      · simp [eq_false_of_ne_true h1, h2]
      · by_cases h3 : (m == "description") = true
        · simp [eq_false_of_ne_true h1, eq_false_of_ne_true h2, h3]
        · by_cases h4 : (m == "privacy") = true
          · simp [eq_false_of_ne_true h1, eq_false_of_ne_true h2, eq_false_of_ne_true h3, h4]
          · simp [eq_false_of_ne_true h1, eq_false_of_ne_true h2, eq_false_of_ne_true h3,
              eq_false_of_ne_true h4]

/-- The bad-mask list computed by `update_set` is `invalid_mask_entries`. -/
theorem update_set_fold_snd (resolveHandle : Option String → Int) (req : UpdateSetRequest)
    (iset : InternalSet) :
    (update_set_fold resolveHandle req iset).2 = invalid_mask_entries req.mask := by
  unfold update_set_fold invalid_mask_entries
  rw [mask_foldl_bad]
  simp

/-- C5: an update whose mask holds at least one unrecognized field name is
rejected as a whole with a single BadRequest whose message lists exactly
all the invalid names, and the store is not mutated. -/
theorem update_set_bad_mask_rejected
    (resolveHandle : Option String → Int) (c : SetKVS) (st : Store) (user : KhUser)
    (sid : Int) (req : UpdateSetRequest) (now : Int) (iset : InternalSet)
    (hfound : kvsGet c sid = some iset)
    (hbad : invalid_mask_entries req.mask ≠ []) :
    (update_set resolveHandle c st user sid req now).1 =
      Except.error (Err.badRequest (bad_mask_msg (invalid_mask_entries req.mask))) ∧
    (update_set resolveHandle c st user sid req now).2.1 = st := by
  rcases hb : invalid_mask_entries req.mask with _ | ⟨m, rest⟩
  · exact absurd hb hbad
  have hx : update_set_fold resolveHandle req iset =
      ((update_set_fold resolveHandle req iset).1, m :: rest) := by
    conv_lhs => rw [show update_set_fold resolveHandle req iset =
      ((update_set_fold resolveHandle req iset).1, (update_set_fold resolveHandle req iset).2)
      from rfl]
    rw [update_set_fold_snd resolveHandle req iset, hb]
  unfold update_set get_set_cached
  rw [hfound]
  simp only [not_verify_authorized_unawaited, Bool.false_eq_true, if_false]
  rw [hx]
  exact ⟨rfl, rfl⟩

/-- Witness for C5: the mask ["owner", "bogus"] is rejected listing
exactly "bogus", and the store is unchanged. -/
theorem update_set_bad_mask_rejected_witness :
    (update_set (fun _ => 0) [(1, ⟨1, 7, none, none, none, 0, 0, some 100, some 100, 1⟩)]
        ⟨[⟨1, 7, none, none, none, 0, 0⟩], [⟨1, 100, 0⟩]⟩ ⟨7, false⟩ 1
        ⟨["owner", "bogus"], some "someone", none, none, none⟩ 9).1 =
      Except.error (Err.badRequest "[bogus] is not a valid mask value") ∧
    (update_set (fun _ => 0) [(1, ⟨1, 7, none, none, none, 0, 0, some 100, some 100, 1⟩)]
        ⟨[⟨1, 7, none, none, none, 0, 0⟩], [⟨1, 100, 0⟩]⟩ ⟨7, false⟩ 1
        ⟨["owner", "bogus"], some "someone", none, none, none⟩ 9).2.1 =
      ⟨[⟨1, 7, none, none, none, 0, 0⟩], [⟨1, 100, 0⟩]⟩ :=
  update_set_bad_mask_rejected (fun _ => 0)
    [(1, ⟨1, 7, none, none, none, 0, 0, some 100, some 100, 1⟩)]
    ⟨[⟨1, 7, none, none, none, 0, 0⟩], [⟨1, 100, 0⟩]⟩ ⟨7, false⟩ 1
    ⟨["owner", "bogus"], some "someone", none, none, none⟩ 9
    ⟨1, 7, none, none, none, 0, 0, some 100, some 100, 1⟩ rfl (by decide)

/-- C6: divergence exhibited — unauthorized and nonexistent are
distinguishable.  An unauthorized read of the existing (cache-resident)
set 1 returns the intended NotFound with the set-id template, but a read
of the nonexistent id 2 always misses the cache and runs the malformed
`_get_set` query, which raises a database error: the NotFound of the dead
no-row branch is unreachable.  The two outcomes differ, so receiving
NotFound tells the caller the set exists — the information-hiding policy
of the claim fails on the code. -/
theorem unauthorized_vs_missing_distinguishable :
    (get_set (fun u s => u.user_id == s.owner || u.scope_mod)
        [(1, ⟨1, 7, none, none, none, 0, 0, some 100, some 100, 1⟩)]
        ⟨[⟨1, 7, none, none, none, 0, 0⟩], [⟨1, 100, 0⟩]⟩ ⟨2, false⟩ 1).1 =
      Except.error (Err.notFound (set_not_found_msg 1)) ∧
    (get_set (fun u s => u.user_id == s.owner || u.scope_mod)
        [(1, ⟨1, 7, none, none, none, 0, 0, some 100, some 100, 1⟩)]
        ⟨[⟨1, 7, none, none, none, 0, 0⟩], [⟨1, 100, 0⟩]⟩ ⟨2, false⟩ 2).1 =
      Except.error get_set_query_err ∧
    (Except.error (Err.notFound (set_not_found_msg 1)) : Except Err InternalSet) ≠
      Except.error get_set_query_err := by
  refine ⟨by decide, rfl, by decide⟩

/-- C10: a negative requested index is rejected by the pydantic validation
of AddPostToSetRequest (`index: conint(ge=0)`) before the engine runs — the
route reports a validation error and neither store nor cache changes — and
whenever the route produces a handled result the index was nonnegative,
so `add_post_to_set` is only ever invoked with a nonnegative index. -/
theorem negative_index_rejected_by_validation
    (postAuth : Int → Bool) (setAuth : KhUser → InternalSet → Bool)
    (c : SetKVS) (st : Store) (user : KhUser) (req : AddPostToSetRequest) :
    (req.index < 0 →
      v1_add_post postAuth setAuth c st user req = (V1Result.validationError, st, c)) ∧
    (∀ r : Except Err Unit,
      (v1_add_post postAuth setAuth c st user req).1 = V1Result.handled r → 0 ≤ req.index) := by
  constructor
  · intro h
    unfold v1_add_post validate_add_request
    rw [decide_eq_false (by omega)]
    rfl
  · intro r hr
    by_cases h : 0 ≤ req.index
    · exact h
    · exfalso
      unfold v1_add_post validate_add_request at hr
      rw [decide_eq_false h] at hr
      cases hr

/-- A row of a dense set has an index within 0 .. count−1. -/
theorem dense_mem_bounds (es : List SetEntryRow) (hd : dense_indices es)
    (e0 : SetEntryRow) (he : e0 ∈ es) :
    0 ≤ e0.index ∧ e0.index < (es.length : Int) := by
  have hmem : e0.index ∈ entry_indices es := List.mem_map_of_mem (fun r => r.index) he
  have hcd := hd e0.index
  by_cases hcase : 0 ≤ e0.index ∧ e0.index < (es.length : Int)
  · exact hcase
  · rw [if_neg hcase] at hcd
    have := List.count_pos_iff.mpr hmem
    omega

/-- Density of a concrete entry list follows from a (decidable) permutation
check against the canonical range. -/
theorem dense_indices_of_perm (es : List SetEntryRow)
    (h : List.Perm (entry_indices es) ((List.range es.length).map (fun k : Nat => (k : Int)))) :
    dense_indices es := by
  intro j
  rw [h.count_eq j, count_int_range]

/-- Indices of a dense set are a permutation of the canonical range. -/
theorem dense_perm_range (es : List SetEntryRow) (hd : dense_indices es) :
    List.Perm (entry_indices es) ((List.range es.length).map (fun k : Nat => (k : Int))) := by
  apply List.perm_iff_count.mpr
  intro a
  rw [hd a, count_int_range]

/-- Interval count over the canonical range. -/
theorem countP_range_interval (n : Nat) (a b : Int) :
    ((List.range n).map (fun k : Nat => (k : Int))).countP
        (fun x => decide (a ≤ x) && decide (x < b)) =
      (min b (n : Int) - max a 0).toNat := by
  induction n with
  | zero =>
    simp only [List.range_zero, List.map_nil, List.countP_nil]
    omega
  | succ n ih =>
    rw [List.range_succ, List.map_append, List.countP_append, ih]
    simp only [List.map_cons, List.map_nil, List.countP_cons, List.countP_nil,
      Bool.and_eq_true, decide_eq_true_eq]
    split_ifs <;> omega

/-- Number of rows of a dense set whose index lies in the interval [a, b). -/
theorem countP_interval_of_dense (es : List SetEntryRow) (hd : dense_indices es) (a b : Int) :
    es.countP (fun r => decide (a ≤ r.index) && decide (r.index < b)) =
      (min b (es.length : Int) - max a 0).toNat := by
  have h1 : (entry_indices es).countP (fun x => decide (a ≤ x) && decide (x < b)) =
      es.countP (fun r => decide (a ≤ r.index) && decide (r.index < b)) := by
    unfold entry_indices
    rw [List.countP_map]
    rfl
  rw [← h1, (dense_perm_range es hd).countP_eq, countP_range_interval]

/-- Length of the "before" side of the window: 3, or fewer (exactly i) when
the post sits within the first three positions. -/
theorem before_neighbors_length (es : List SetEntryRow) (i : Int)
    (hd : dense_indices es) (e0 : SetEntryRow) (he : e0 ∈ es) (hi : e0.index = i) :
    (before_neighbors es i).length = min 3 i.toNat := by
  have hb := dense_mem_bounds es hd e0 he
  rw [hi] at hb
  unfold before_neighbors window_rows
  rw [List.length_mergeSort, List.filter_filter, ← List.countP_eq_length_filter]
  have hcongr : es.countP (fun r => decide (r.index < i) &&
        (decide (i - neighbor_range ≤ r.index) && decide (r.index ≤ i + neighbor_range)
          && (r.index != i))) =
      es.countP (fun r => decide (i - 3 ≤ r.index) && decide (r.index < i)) := by
    apply List.countP_congr
    intro r _
    simp only [Bool.and_eq_true, decide_eq_true_eq, bne_iff_ne, ne_eq, neighbor_range]
    omega
  rw [hcongr, countP_interval_of_dense es hd (i - 3) i]
  omega

/-- Length of the "after" side of the window: 3, or fewer (exactly
count−1−i) when the post sits within the last three positions. -/
theorem after_neighbors_length (es : List SetEntryRow) (i : Int)
    (hd : dense_indices es) (e0 : SetEntryRow) (he : e0 ∈ es) (hi : e0.index = i) :
    (after_neighbors es i).length = min 3 (es.length - 1 - i.toNat) := by
  have hb := dense_mem_bounds es hd e0 he
  rw [hi] at hb
  unfold after_neighbors window_rows
  rw [List.length_mergeSort, List.filter_filter, ← List.countP_eq_length_filter]
  have hcongr : es.countP (fun r => decide (i < r.index) &&
        (decide (i - neighbor_range ≤ r.index) && decide (r.index ≤ i + neighbor_range)
          && (r.index != i))) =
      es.countP (fun r => decide (i + 1 ≤ r.index) && decide (r.index < i + 4)) := by
    apply List.countP_congr
    intro r _
    simp only [Bool.and_eq_true, decide_eq_true_eq, bne_iff_ne, ne_eq, neighbor_range]
    omega
  rw [hcongr, countP_interval_of_dense es hd (i + 1) (i + 4)]
  omega

/-- The "before" side is sorted descending by index (nearest first). -/
theorem before_neighbors_sorted (es : List SetEntryRow) (i : Int) :
    (before_neighbors es i).Pairwise (fun a b => b.index ≤ a.index) := by
  have h : (List.mergeSort ((window_rows es i).filter (fun r => decide (r.index < i)))
      (fun a b : SetEntryRow => decide (b.index ≤ a.index))).Pairwise
      (fun a b : SetEntryRow => decide (b.index ≤ a.index) = true) := by
    apply List.sorted_mergeSort
    · intro a b c hab hbc
      simp only [decide_eq_true_eq] at hab hbc ⊢
      omega
    · intro a b
      simp only [Bool.or_eq_true, decide_eq_true_eq]
      omega
  exact h.imp (fun hab => by simpa using hab)

/-- The "after" side is sorted ascending by index (nearest first). -/
theorem after_neighbors_sorted (es : List SetEntryRow) (i : Int) :
    (after_neighbors es i).Pairwise (fun a b => a.index ≤ b.index) := by
  have h : (List.mergeSort ((window_rows es i).filter (fun r => decide (i < r.index)))
      (fun a b : SetEntryRow => decide (a.index ≤ b.index))).Pairwise
      (fun a b : SetEntryRow => decide (a.index ≤ b.index) = true) := by
    apply List.sorted_mergeSort
    · intro a b c hab hbc
      simp only [decide_eq_true_eq] at hab hbc ⊢
      omega
    · intro a b
      simp only [Bool.or_eq_true, decide_eq_true_eq]
      omega
  exact h.imp (fun hab => by simpa using hab)

/-- Shape of the unreachable Python window post-processing of
`get_post_sets`, for a post p at index i of a dense per-set entry list:
every "before" entry has an index in [i−3, i−1] and is not the post
itself, the "before" list is ordered descending by index and has length
min 3 i; symmetrically every "after" entry has an index in [i+1, i+3] and
is not the post, the "after" list is ordered ascending by index and has
length min 3 (count−1−i); and every entry lying in the window appears on
its side.  In the program this machinery never receives a row, see
`get_post_sets_query_err`. -/
theorem window_post_processing_shape
    (es : List SetEntryRow) (p i : Int) (e0 : SetEntryRow)
    (he : e0 ∈ es) (hp : e0.post_id = p) (hi : e0.index = i)
    (hd : dense_indices es) (hnd : nodup_posts es) :
    (∀ r ∈ before_neighbors es i, i - 3 ≤ r.index ∧ r.index < i ∧ r.post_id ≠ p) ∧
    (before_neighbors es i).Pairwise (fun a b => b.index ≤ a.index) ∧
    (before_neighbors es i).length = min 3 i.toNat ∧
    (∀ r ∈ after_neighbors es i, i < r.index ∧ r.index ≤ i + 3 ∧ r.post_id ≠ p) ∧
    (after_neighbors es i).Pairwise (fun a b => a.index ≤ b.index) ∧
    (after_neighbors es i).length = min 3 (es.length - 1 - i.toNat) ∧
    (∀ r ∈ es, i - 3 ≤ r.index → r.index < i → r ∈ before_neighbors es i) ∧
    (∀ r ∈ es, i < r.index → r.index ≤ i + 3 → r ∈ after_neighbors es i) := by
  have hpostne : ∀ r ∈ es, r.index ≠ i → r.post_id ≠ p := by
    intro r hr hne hcon
    apply hne
    have : r = e0 := List.inj_on_of_nodup_map hnd hr he (by rw [hcon, hp])
    rw [this, hi]
  refine ⟨?_, before_neighbors_sorted es i, before_neighbors_length es i hd e0 he hi,
    ?_, after_neighbors_sorted es i, after_neighbors_length es i hd e0 he hi, ?_, ?_⟩
  · intro r hr
    rw [before_neighbors, List.mem_mergeSort] at hr
    have h1 := List.mem_filter.mp hr
    have h2 := List.mem_filter.mp h1.1
    have hw := h2.2
    simp only [window_rows] at hw
    simp only [Bool.and_eq_true, decide_eq_true_eq, bne_iff_ne, ne_eq, neighbor_range] at hw
    have hlt : r.index < i := by simpa using h1.2
    exact ⟨by omega, hlt, hpostne r h2.1 (by omega)⟩
  · intro r hr
    rw [after_neighbors, List.mem_mergeSort] at hr
    have h1 := List.mem_filter.mp hr
    have h2 := List.mem_filter.mp h1.1
    have hw := h2.2
    simp only [Bool.and_eq_true, decide_eq_true_eq, bne_iff_ne, ne_eq, neighbor_range] at hw
    have hlt : i < r.index := by simpa using h1.2
    exact ⟨hlt, by omega, hpostne r h2.1 (by omega)⟩
  · intro r hr h3 hlt
    rw [before_neighbors, List.mem_mergeSort]
    apply List.mem_filter.mpr
    refine ⟨List.mem_filter.mpr ⟨hr, ?_⟩, by simpa using hlt⟩
    simp only [window_rows, Bool.and_eq_true, decide_eq_true_eq, bne_iff_ne, ne_eq,
      neighbor_range]
    omega
  · intro r hr hlt h3
    rw [after_neighbors, List.mem_mergeSort]
    apply List.mem_filter.mpr
    refine ⟨List.mem_filter.mpr ⟨hr, ?_⟩, by simpa using hlt⟩
    simp only [Bool.and_eq_true, decide_eq_true_eq, bne_iff_ne, ne_eq, neighbor_range]
    omega

/-- Concrete instance of the window post-processing shape on a seven-entry
set with the post at index 3: three neighbors on each side, none of them
the post. -/
theorem window_post_processing_shape_example :
    (before_neighbors [⟨1, 10, 0⟩, ⟨1, 11, 1⟩, ⟨1, 12, 2⟩, ⟨1, 13, 3⟩, ⟨1, 14, 4⟩,
        ⟨1, 15, 5⟩, ⟨1, 16, 6⟩] 3).length = min 3 (Int.toNat 3) ∧
    (after_neighbors [⟨1, 10, 0⟩, ⟨1, 11, 1⟩, ⟨1, 12, 2⟩, ⟨1, 13, 3⟩, ⟨1, 14, 4⟩,
        ⟨1, 15, 5⟩, ⟨1, 16, 6⟩] 3).length =
      min 3 (([⟨1, 10, 0⟩, ⟨1, 11, 1⟩, ⟨1, 12, 2⟩, ⟨1, 13, 3⟩, ⟨1, 14, 4⟩,
        ⟨1, 15, 5⟩, ⟨1, 16, 6⟩] : List SetEntryRow).length - 1 - Int.toNat 3) ∧
    (∀ r ∈ before_neighbors [⟨1, 10, 0⟩, ⟨1, 11, 1⟩, ⟨1, 12, 2⟩, ⟨1, 13, 3⟩, ⟨1, 14, 4⟩,
        ⟨1, 15, 5⟩, ⟨1, 16, 6⟩] 3, 3 - 3 ≤ r.index ∧ r.index < 3 ∧ r.post_id ≠ 13) := by
  obtain ⟨h1, h2, h3, h4, h5, h6, h7, h8⟩ :=
    window_post_processing_shape
      [⟨1, 10, 0⟩, ⟨1, 11, 1⟩, ⟨1, 12, 2⟩, ⟨1, 13, 3⟩, ⟨1, 14, 4⟩, ⟨1, 15, 5⟩, ⟨1, 16, 6⟩]
      13 3 ⟨1, 13, 3⟩ (by decide) rfl rfl
      (dense_indices_of_perm _ (by decide)) (by unfold nodup_posts; decide)
  exact ⟨h3, h6, h1⟩

/-- C7: divergence exhibited — `get_post_sets` never returns a neighbor
window for any post: its query inner-joins the undefined relation `first`,
so every execution raises a database error before a single row is
produced, and the Python code that would build the claimed before/after
lists never runs.  (Even with that join removed, the query's `f`/`l` CTEs
keep one LIMIT 1 row across all containing sets and are inner-joined back
on set_id, dropping every other containing set.)  The error is not even
the NotFound shape of the service's intentional failures. -/
theorem get_post_sets_never_returns_window :
    (∀ st : Store, ∀ pid : Int,
      get_post_sets_query st pid = Except.error get_post_sets_query_err) ∧
    get_post_sets_query ⟨[⟨1, 7, none, none, none, 0, 0⟩], [⟨1, 100, 0⟩, ⟨1, 200, 1⟩]⟩ 100 =
      Except.error get_post_sets_query_err ∧
    (∀ msg : String, get_post_sets_query_err ≠ Err.notFound msg) := by
  refine ⟨fun _ _ => rfl, rfl, fun msg h => ?_⟩
  cases h

/-- Witness for C10: a request with index −1 is rejected by validation and
neither store nor cache changes. -/
theorem negative_index_rejected_by_validation_witness :
    v1_add_post (fun _ => true) (fun _ _ => true) [] ⟨[], []⟩ ⟨7, false⟩ ⟨100, 1, -1⟩ =
      (V1Result.validationError, ⟨[], []⟩, []) :=
  (negative_index_rejected_by_validation (fun _ => true) (fun _ _ => true)
    [] ⟨[], []⟩ ⟨7, false⟩ ⟨100, 1, -1⟩).1 (by decide)
